import Mathlib

/-!
Verification development for the sev-shim repository.

The Go sources are shallowly embedded as Lean definitions:

* byte sequences are lists of natural numbers (each byte < 256 where it matters);
* the capability-token verifier (package key, Verifier.Verify) is embedded as
  a pure function over the token bytes, a clock value in nanoseconds, and the
  Ed25519 core verification predicate (the crypto primitive itself is external
  to the repository, so it is a parameter);
* Go's int64 arithmetic (the casts and the Duration multiplication in Verify)
  is embedded with explicit wrap-around at 2^64, and time.Sub's documented
  saturation at the Duration bounds is explicit;
* the HTTP handler for the attestation endpoint is embedded as a small state
  machine over a response writer with net/http's documented semantics: the
  header map is snapshotted at the first WriteHeader and later mutations of
  the map do not reach the response.
-/

namespace SevShim

/-- Byte sequences: lists of natural numbers. -/
abbrev Bytes := List Nat

/-! ### encoding/base64, URL-safe alphabet without padding (base64.RawURLEncoding) -/

/-- Decoded 6-bit value of one character of the URL-safe base64 alphabet
(A-Z, a-z, 0-9, minus, underscore); any other byte is rejected, as in
encoding/base64's decode map. -/
def b64UrlVal (c : Nat) : Option Nat :=
  if 65 ≤ c ∧ c ≤ 90 then some (c - 65)
  else if 97 ≤ c ∧ c ≤ 122 then some (c - 97 + 26)
  else if 48 ≤ c ∧ c ≤ 57 then some (c - 48 + 52)
  else if c = 45 then some 62
  else if c = 95 then some 63
  else none

/-- Character of the URL-safe base64 alphabet for a 6-bit value. -/
def b64UrlChar (v : Nat) : Nat :=
  if v < 26 then 65 + v
  else if v < 52 then 97 + (v - 26)
  else if v < 62 then 48 + (v - 52)
  else if v = 62 then 45
  else 95

/-- Unpadded base64 decoding: groups of four characters yield three bytes, a
final group of two or three characters yields one or two bytes, and a dangling
single character is corrupt input, as in encoding/base64 without padding.
Trailing bits of the final partial group are ignored (the default, non-strict
decoder). -/
def rawURLDecodeCore : Bytes → Option Bytes
  | [] => some []
  | [_] => none
  | [a, b] => do
      let va ← b64UrlVal a
      let vb ← b64UrlVal b
      pure [va * 4 + vb / 16]
  | [a, b, c] => do
      let va ← b64UrlVal a
      let vb ← b64UrlVal b
      let vc ← b64UrlVal c
      pure [va * 4 + vb / 16, vb % 16 * 16 + vc / 4]
  | a :: b :: c :: d :: rest => do
      let va ← b64UrlVal a
      let vb ← b64UrlVal b
      let vc ← b64UrlVal c
      let vd ← b64UrlVal d
      let tail ← rawURLDecodeCore rest
      pure ((va * 4 + vb / 16) :: (vb % 16 * 16 + vc / 4) :: (vc % 4 * 64 + vd) :: tail)

/-- base64.RawURLEncoding.DecodeString: carriage returns and newlines are
skipped by encoding/base64's decoder, then the unpadded groups are decoded. -/
def rawURLDecode (s : Bytes) : Option Bytes :=
  rawURLDecodeCore (s.filter (fun c => c != 13 && c != 10))

/-- base64.RawURLEncoding.EncodeToString: three input bytes become four
characters; a final one or two bytes become two or three characters, no
padding. -/
def rawURLEncode : Bytes → Bytes
  | [] => []
  | [a] => [b64UrlChar (a / 4), b64UrlChar (a % 4 * 16)]
  | [a, b] => [b64UrlChar (a / 4), b64UrlChar (a % 4 * 16 + b / 16), b64UrlChar (b % 16 * 4)]
  | a :: b :: c :: rest =>
      b64UrlChar (a / 4) :: b64UrlChar (a % 4 * 16 + b / 16) ::
      b64UrlChar (b % 16 * 4 + c / 64) :: b64UrlChar (c % 64) :: rawURLEncode rest

/-! ### Token layout constants (package key) -/

/-- Modelled from the spec: the nonce size of a capability token.  The
constant nonceSize is declared in the key package outside the provided
sources; the spec's end-to-end scenario uses a 16-byte nonce. -/
def nonceSize : Nat := 16

/-- The 8-byte big-endian issuance timestamp field. -/
def timestampSize : Nat := 8

/-- The 8-byte big-endian validity field. -/
def validitySize : Nat := 8

/-- Modelled from the spec: the signature field size; the token carries a
64-byte Ed25519 signature (crypto/ed25519's SignatureSize). -/
def signatureSize : Nat := 64

/-- The fixed decoded token length checked by Verify. -/
def totalSize : Nat := nonceSize + timestampSize + validitySize + signatureSize

/-- crypto/ed25519: PublicKeySize; ed25519.Verify panics when the public key
has any other length. -/
def ed25519PublicKeySize : Nat := 32

/-! ### Go int64 arithmetic and the time package fragment used by Verify -/

/-- Go's conversion int64(u) of an unsigned 64-bit value: values with the
high bit set become negative. -/
def toInt64 (n : Nat) : Int :=
  if n < 2 ^ 63 then (n : Int) else (n : Int) - 2 ^ 64

/-- Wrap-around of a signed 64-bit computation, Go's int64 overflow
semantics (used for the Duration multiplication validity * time.Second). -/
def int64Wrap (x : Int) : Int := (x + 2 ^ 63) % 2 ^ 64 - 2 ^ 63

/-- Largest time.Duration, in nanoseconds. -/
def maxDuration : Int := 2 ^ 63 - 1

/-- Smallest time.Duration, in nanoseconds. -/
def minDuration : Int := -(2 ^ 63)

/-- Nanoseconds per second (time.Second). -/
def nsPerSec : Int := 1000000000

/-- time.Since(time.Unix(sec, 0)) with the current wall clock at nowNs
nanoseconds since the epoch: the difference in nanoseconds, saturating at the
Duration bounds as documented for time.Sub. -/
def timeSinceNs (nowNs : Int) (sec : Int) : Int :=
  max minDuration (min maxDuration (nowNs - sec * nsPerSec))

/-- binary.BigEndian.Uint64 over a byte slice. -/
def beUint64 (bs : Bytes) : Nat := bs.foldl (fun acc b => acc * 256 + b) 0

/-- Big-endian 8-byte encoding of a 64-bit value (for building tokens). -/
def be8 (n : Nat) : Bytes :=
  [n / 2 ^ 56 % 256, n / 2 ^ 48 % 256, n / 2 ^ 40 % 256, n / 2 ^ 32 % 256,
   n / 2 ^ 24 % 256, n / 2 ^ 16 % 256, n / 2 ^ 8 % 256, n % 256]

/-- The timestamp field of a decoded token, as Verify reads it:
int64(binary.BigEndian.Uint64(data[nonceSize : nonceSize+timestampSize])). -/
def tokenTimestamp (data : Bytes) : Int :=
  toInt64 (beUint64 ((data.drop nonceSize).take timestampSize))

/-- The validity field of a decoded token, as Verify reads it. -/
def tokenValidity (data : Bytes) : Int :=
  toInt64 (beUint64 ((data.drop (nonceSize + timestampSize)).take validitySize))

/-! ### The verifier (package key) -/

/-- The error values of the key package. -/
inductive KeyError
  | invalidKeyFormat
  | invalidKeyLength
  | apiKeyExpired
  | invalidSignature
  deriving DecidableEq

/-- Outcome of Verifier.Verify: success, one of the four errors, or a panic
raised below Verify (inside ed25519.Verify, for a wrong-size public key). -/
inductive VerifyResult
  | panicked
  | success
  | failure (e : KeyError)
  deriving DecidableEq

/-- Verifier.Verify: decode the token from unpadded URL-safe base64, check
the fixed length, read the two big-endian fields through int64 casts, check
expiry against the clock, then check the Ed25519 signature.  The edCore
parameter is the mathematical signature-validity predicate of crypto/ed25519
for a correctly sized key; ed25519.Verify first panics when the key is not
32 bytes, which the panicked outcome records. -/
def verify (edCore : Bytes → Bytes → Bytes → Bool) (publicKey : Bytes)
    (nowNs : Int) (apiKey : Bytes) : VerifyResult :=
  match rawURLDecode apiKey with
  | none => .failure .invalidKeyFormat
  | some data =>
    if data.length ≠ totalSize then .failure .invalidKeyLength
    else if timeSinceNs nowNs (tokenTimestamp data) > int64Wrap (tokenValidity data * nsPerSec) then
      .failure .apiKeyExpired
    else if publicKey.length ≠ ed25519PublicKeySize then .panicked
    else if edCore publicKey (data.take (nonceSize + timestampSize + validitySize))
        (data.drop (nonceSize + timestampSize + validitySize)) then .success
    else .failure .invalidSignature

/-- NewVerifier: decode the configured public key from unpadded URL-safe
base64 and keep whatever bytes come out; there is no length check. -/
def newVerifier (publicKey : Bytes) : Option Bytes := rawURLDecode publicKey

/-! ### Helper lemmas about the token layout -/

theorem be8_length (n : Nat) : (be8 n).length = 8 := rfl

theorem beUint64_be8 (n : Nat) (h : n < 2 ^ 64) : beUint64 (be8 n) = n := by
  simp only [beUint64, be8, List.foldl_cons, List.foldl_nil]
  omega

theorem tokenTimestamp_eq (nonce sig : Bytes) (iss v : Nat)
    (hn : nonce.length = nonceSize) :
    tokenTimestamp (nonce ++ be8 iss ++ be8 v ++ sig) = toInt64 (beUint64 (be8 iss)) := by
  unfold tokenTimestamp
  simp only [List.append_assoc]
  rw [List.drop_left' hn, List.take_left' (show (be8 iss).length = timestampSize from rfl)]

theorem tokenValidity_eq (nonce sig : Bytes) (iss v : Nat)
    (hn : nonce.length = nonceSize) :
    tokenValidity (nonce ++ be8 iss ++ be8 v ++ sig) = toInt64 (beUint64 (be8 v)) := by
  unfold tokenValidity
  simp only [List.append_assoc]
  rw [← hn, List.drop_append timestampSize,
    List.drop_left' (show (be8 iss).length = timestampSize from rfl),
    List.take_left' (show (be8 v).length = validitySize from rfl)]

theorem tokenMessage_eq (nonce sig : Bytes) (iss v : Nat)
    (hn : nonce.length = nonceSize) :
    (nonce ++ be8 iss ++ be8 v ++ sig).take (nonceSize + timestampSize + validitySize)
      = nonce ++ be8 iss ++ be8 v := by
  rw [List.take_left'
    (by simp [hn, be8_length, nonceSize, timestampSize, validitySize])]

theorem tokenSignature_eq (nonce sig : Bytes) (iss v : Nat)
    (hn : nonce.length = nonceSize) :
    (nonce ++ be8 iss ++ be8 v ++ sig).drop (nonceSize + timestampSize + validitySize) = sig := by
  rw [List.drop_left'
    (by simp [hn, be8_length, nonceSize, timestampSize, validitySize])]

theorem token_length (nonce sig : Bytes) (iss v : Nat)
    (hn : nonce.length = nonceSize) (hs : sig.length = signatureSize) :
    (nonce ++ be8 iss ++ be8 v ++ sig).length = totalSize := by
  simp [hn, hs, be8_length, totalSize, nonceSize, timestampSize, validitySize, signatureSize]

/-- Evaluation of Verify on a token that decodes to a well-shaped byte
sequence: the length check passes and the result is decided by the expiry
comparison, the key size, and the signature predicate. -/
theorem verify_full_eval (edCore : Bytes → Bytes → Bytes → Bool) (pk : Bytes)
    (nowNs : Int) (tok nonce sig : Bytes) (iss v : Nat)
    (hn : nonce.length = nonceSize) (hs : sig.length = signatureSize)
    (hdec : rawURLDecode tok = some (nonce ++ be8 iss ++ be8 v ++ sig)) :
    verify edCore pk nowNs tok =
      if timeSinceNs nowNs (toInt64 (beUint64 (be8 iss))) >
          int64Wrap (toInt64 (beUint64 (be8 v)) * nsPerSec) then
        .failure .apiKeyExpired
      else if pk.length ≠ ed25519PublicKeySize then .panicked
      else if edCore pk (nonce ++ be8 iss ++ be8 v) sig then .success
      else .failure .invalidSignature := by
  unfold verify
  rw [hdec]
  simp only [token_length nonce sig iss v hn hs, ne_eq, not_true_eq_false, if_false,
    tokenTimestamp_eq nonce sig iss v hn, tokenValidity_eq nonce sig iss v hn,
    tokenMessage_eq nonce sig iss v hn, tokenSignature_eq nonce sig iss v hn]

theorem int64Wrap_eq_self (x : Int) (h1 : -(2 ^ 63) ≤ x) (h2 : x < 2 ^ 63) :
    int64Wrap x = x := by
  unfold int64Wrap
  omega

theorem timeSinceNs_eq_self (nowNs sec : Int)
    (h1 : -(2 ^ 63) ≤ nowNs - sec * nsPerSec) (h2 : nowNs - sec * nsPerSec ≤ 2 ^ 63 - 1) :
    timeSinceNs nowNs sec = nowNs - sec * nsPerSec := by
  unfold timeSinceNs maxDuration minDuration
  omega

theorem toInt64_small (n : Nat) (h : n < 2 ^ 63) : toInt64 n = (n : Int) := by
  unfold toInt64
  rw [if_pos h]

/-! ### The path gate (the root handler in main.go) -/

/-- What the root handler does with a request before the reverse proxy. -/
inductive GateOutcome
  | forwarded
  | denied (status : Nat) (body : String)
  deriving DecidableEq

/-- The path gate of the root handler: when the configured path list is
non-empty, scan it for an exact match of the request path and answer
http.Error(w, "shim: 403", http.StatusForbidden) when none matches;
otherwise fall through to the reverse proxy. -/
def admitGate (paths : List String) (requestPath : String) : GateOutcome :=
  if paths.length > 0 then
    if paths.contains requestPath then .forwarded
    else .denied 403 "shim: 403"
  else .forwarded

/-! ### The certificate fingerprint binding (attestationReport's userData) -/

/-- One lowercase hexadecimal digit character, as in encoding/hex. -/
def hexDigitChar (v : Nat) : Nat := if v < 10 then 48 + v else 87 + v

/-- hex.EncodeToString: each byte becomes two lowercase hexadecimal
characters, high nibble first. -/
def hexEncode : Bytes → Bytes
  | [] => []
  | b :: rest => hexDigitChar (b / 16) :: hexDigitChar (b % 16) :: hexEncode rest

/-- The userData construction of attestationReport:
var userData [64]byte; copy(userData[:], certFP).  The 64-byte array is
zero-initialized and copy transfers min(64, len) bytes from offset 0. -/
def copyInto64 (src : Bytes) : Bytes := (src ++ List.replicate 64 0).take 64

/-- The full binding pipeline of main: certFPHex := hex.EncodeToString of the
digest of the certificate bytes, then attestationReport copies the text into
the zero-initialized buffer.  The digest function (crypto/sha256) is external
to the repository and is a parameter; its output for a fixed input is a fixed
32-byte sequence. -/
def userDataOf (sha : Bytes → Bytes) (cert : Bytes) : Bytes :=
  copyInto64 (hexEncode (sha cert))

/-! ### The attestation document (attestationReport's result) -/

/-- The document type of the external verifier package: a format tag and a
body holding the base64 text of the raw report. -/
structure Document where
  format : String
  body : String
  deriving DecidableEq

/-- The fixed format tag attestation.SevGuestV1 of the external verifier
package; its concrete text is irrelevant to the claims. -/
def sevGuestV1 : String := "sev-guest-v1"

/-- abi.ReportSize of go-sev-guest: the fixed SEV-SNP report size. -/
def reportSize : Nat := 1184

/-- Character of the standard base64 alphabet for a 6-bit value. -/
def stdB64Char (v : Nat) : Nat :=
  if v < 26 then 65 + v
  else if v < 52 then 97 + (v - 26)
  else if v < 62 then 48 + (v - 52)
  else if v = 62 then 43
  else 47

/-- base64.StdEncoding.EncodeToString: three bytes per four characters,
padded with the equals character. -/
def stdB64Encode : Bytes → Bytes
  | [] => []
  | [a] => [stdB64Char (a / 4), stdB64Char (a % 4 * 16), 61, 61]
  | [a, b] => [stdB64Char (a / 4), stdB64Char (a % 4 * 16 + b / 16), stdB64Char (b % 16 * 4), 61]
  | a :: b :: c :: rest =>
      stdB64Char (a / 4) :: stdB64Char (a % 4 * 16 + b / 16) ::
      stdB64Char (b % 16 * 4 + c / 64) :: stdB64Char (c % 64) :: stdB64Encode rest

/-- A byte sequence of ASCII codes read as a string. -/
def asciiString (bs : Bytes) : String := String.mk (bs.map Char.ofNat)

/-- The truncation step of attestationReport: a report longer than
abi.ReportSize is cut to exactly that size, anything else is kept as is. -/
def truncateReport (report : Bytes) : Bytes :=
  if report.length > reportSize then report.take reportSize else report

/-- attestationReport's resulting document for a raw report returned by the
quote provider. -/
def attestationDoc (report : Bytes) : Document :=
  { format := sevGuestV1, body := asciiString (stdB64Encode (truncateReport report)) }

/-! ### The attestation HTTP handler (cors and the well-known endpoint) -/

/-- A header map as handlers edit it: names paired with their value lists. -/
abbrev Headers := List (String × List String)

/-- Header().Get-style lookup of all values of a name. -/
def hGet (hs : Headers) (k : String) : Option (List String) :=
  (hs.find? (fun kv => kv.1 == k)).map (fun kv => kv.2)

/-- Header().Set: replace any existing values of the name with one value. -/
def hSet (hs : Headers) (k v : String) : Headers :=
  (hs.filter (fun kv => kv.1 != k)) ++ [(k, [v])]

/-- Header().Del: drop the name. -/
def hDel (hs : Headers) (k : String) : Headers := hs.filter (fun kv => kv.1 != k)

/-- The state of a net/http ResponseWriter: the header map the handler
mutates, the status and the header snapshot once the header has been
written, and the accumulated body.  Per net/http, changing the header map
after WriteHeader has no effect on the response. -/
structure ResponseWriter where
  pending : Headers
  status : Option Nat
  sent : Headers
  body : String
  deriving DecidableEq

/-- A fresh response writer. -/
def freshRW : ResponseWriter := { pending := [], status := none, sent := [], body := "" }

/-- Header().Set on a writer: always edits the pending map; the snapshot
taken at WriteHeader is unaffected. -/
def wSetHeader (w : ResponseWriter) (k v : String) : ResponseWriter :=
  { w with pending := hSet w.pending k v }

/-- Header().Del on a writer. -/
def wDelHeader (w : ResponseWriter) (k : String) : ResponseWriter :=
  { w with pending := hDel w.pending k }

/-- WriteHeader: the first call records the status and snapshots the header
map; any further call is superfluous and ignored. -/
def wWriteHeader (w : ResponseWriter) (code : Nat) : ResponseWriter :=
  match w.status with
  | some _ => w
  | none => { w with status := some code, sent := w.pending }

/-- Write: an implicit WriteHeader(200) if none happened yet, then append to
the body. -/
def wWrite (w : ResponseWriter) (s : String) : ResponseWriter :=
  match w.status with
  | some _ => { w with body := w.body ++ s }
  | none => { w with status := some 200, sent := w.pending, body := w.body ++ s }

/-- The cors helper of main.go: set the three wildcard headers, and for an
OPTIONS request write status 200 and return — the return ends cors itself,
not the calling handler. -/
def cors (method : String) (w : ResponseWriter) : ResponseWriter :=
  let w1 := wSetHeader w "Access-Control-Allow-Origin" "*"
  let w2 := wSetHeader w1 "Access-Control-Allow-Methods" "*"
  let w3 := wSetHeader w2 "Access-Control-Allow-Headers" "*"
  if method = "OPTIONS" then wWriteHeader w3 200 else w3

/-- Modelled from the spec: json.Marshal of the external verifier package's
document type, a JSON object with exactly the two fields format and body (the
field values — a fixed tag and base64 text — need no JSON escaping). -/
def jsonEncodeDocument (d : Document) : String :=
  "\x7b\"format\":\"" ++ d.format ++ "\",\"body\":\"" ++ d.body ++ "\"\x7d"

/-- The well-known attestation endpoint handler of main.go: cors, then
WriteHeader(200), then a Content-Type set, then json encoding of the cached
document into the body (json.Encoder.Encode appends a newline). -/
def attestationHandler (att : Document) (method : String) : ResponseWriter :=
  let w1 := cors method freshRW
  let w2 := wWriteHeader w1 200
  let w3 := wSetHeader w2 "Content-Type" "application/json"
  wWrite w3 (jsonEncodeDocument att ++ "\n")

/-! ### Helper lemmas for the fingerprint binding -/

theorem hexEncode_length (bs : Bytes) : (hexEncode bs).length = 2 * bs.length := by
  induction bs with
  | nil => rfl
  | cons b rest ih => simp [hexEncode, ih]; omega

theorem hexDigitChar_range (v : Nat) (h : v < 16) :
    (48 ≤ hexDigitChar v ∧ hexDigitChar v ≤ 57) ∨ (97 ≤ hexDigitChar v ∧ hexDigitChar v ≤ 102) := by
  unfold hexDigitChar
  split <;> omega

theorem hexEncode_chars (bs : Bytes) (hb : ∀ b ∈ bs, b < 256) :
    ∀ c ∈ hexEncode bs, (48 ≤ c ∧ c ≤ 57) ∨ (97 ≤ c ∧ c ≤ 102) := by
  induction bs with
  | nil => intro c hc; cases hc
  | cons b rest ih =>
    intro c hc
    have hb0 : b < 256 := hb b (List.mem_cons_self b rest)
    simp only [hexEncode, List.mem_cons] at hc
    rcases hc with rfl | rfl | hc
    · exact hexDigitChar_range (b / 16) (by omega)
    · exact hexDigitChar_range (b % 16) (by omega)
    · exact ih (fun x hx => hb x (List.mem_cons_of_mem b hx)) c hc

theorem copyInto64_eq (src : Bytes) :
    copyInto64 src = src.take 64 ++ List.replicate (64 - src.length) 0 := by
  unfold copyInto64
  rw [List.take_append_eq_append_take, List.take_replicate]
  have h : min (64 - src.length) 64 = 64 - src.length := by omega
  rw [h]

/-- C1: the UserData buffer passed to the attestation provider is the
zero-initialized 64-byte array with the lowercase hexadecimal text of the
certificate digest copied in at offset 0; a 32-byte digest yields exactly 64
hexadecimal characters, so the text fills the buffer, every character is a
lowercase hexadecimal digit, and the construction is a function of the
certificate bytes (deterministic). -/
theorem userData_hex_binding (sha : Bytes → Bytes) (cert : Bytes)
    (hlen : (sha cert).length = 32) (hbytes : ∀ b ∈ sha cert, b < 256) :
    userDataOf sha cert = hexEncode (sha cert) ∧
    (userDataOf sha cert).length = 64 ∧
    (hexEncode (sha cert)).length = 64 ∧
    (∀ c ∈ hexEncode (sha cert), (48 ≤ c ∧ c ≤ 57) ∨ (97 ≤ c ∧ c ≤ 102)) ∧
    (∀ src : Bytes, copyInto64 src = src.take 64 ++ List.replicate (64 - src.length) 0) ∧
    (∀ cert2, cert2 = cert → userDataOf sha cert2 = userDataOf sha cert) := by
  have hhl : (hexEncode (sha cert)).length = 64 := by rw [hexEncode_length, hlen]
  have hud : userDataOf sha cert = hexEncode (sha cert) := by
    unfold userDataOf copyInto64
    rw [List.take_append_eq_append_take, List.take_replicate, hhl]
    simp
    omega
  refine ⟨hud, ?_, hhl, hexEncode_chars (sha cert) hbytes, copyInto64_eq, ?_⟩
  · rw [hud, hhl]
  · intro cert2 h
    rw [h]

/-- Witness for C1 at a concrete digest function and certificate. -/
theorem userData_hex_binding_witness :
    userDataOf (fun _ => List.replicate 32 0) [] = hexEncode (List.replicate 32 0) :=
  (userData_hex_binding (fun _ => List.replicate 32 0) [] (by decide) (by decide)).1

/-- C3: with an empty configured path list the gate admits every path;
with a non-empty list a path is admitted exactly when it equals one of the
entries, and every other path is answered with status 403 and the fixed body,
never reaching the proxy. -/
theorem admitGate_spec (paths : List String) (p : String) :
    (paths = [] → admitGate paths p = .forwarded) ∧
    (paths ≠ [] →
      ((admitGate paths p = .forwarded ↔ p ∈ paths) ∧
       (p ∉ paths → admitGate paths p = .denied 403 "shim: 403"))) := by
  constructor
  · intro h
    subst h
    rfl
  · intro h
    have hl : 0 < paths.length := List.length_pos.mpr h
    unfold admitGate
    rw [if_pos hl]
    constructor
    · constructor
      · intro hf
        by_contra hmem
        rw [if_neg (by simpa using hmem)] at hf
        exact absurd hf (by simp)
      · intro hmem
        rw [if_pos (by simpa using hmem)]
    · intro hmem
      rw [if_neg (by simpa using hmem)]

/-- Witness for C3: the spec's concrete path-gate scenarios. -/
theorem admitGate_spec_witness :
    admitGate [] "/" = .forwarded ∧
    admitGate ["/api"] "/api" = .forwarded ∧
    admitGate ["/api"] "/api/x" = .denied 403 "shim: 403" ∧
    admitGate ["/api"] "/" = .denied 403 "shim: 403" :=
  ⟨(admitGate_spec [] "/").1 rfl,
   ((admitGate_spec ["/api"] "/api").2 (by simp)).1.mpr (by simp),
   ((admitGate_spec ["/api"] "/api/x").2 (by simp)).2 (by simp),
   ((admitGate_spec ["/api"] "/").2 (by simp)).2 (by simp)⟩

/-- C8: a raw report longer than the fixed platform maximum is truncated to
exactly that maximum, a report within the maximum is kept unchanged (never
padded, never rejected), and the resulting document carries the provider's
fixed format tag and the base64 text of the possibly-truncated report. -/
theorem attestationReport_truncation (report : Bytes) :
    (truncateReport report).length = min report.length reportSize ∧
    (report.length > reportSize → truncateReport report = report.take reportSize ∧
      (truncateReport report).length = reportSize) ∧
    (report.length ≤ reportSize → truncateReport report = report) ∧
    (attestationDoc report).format = sevGuestV1 ∧
    (attestationDoc report).body = asciiString (stdB64Encode (truncateReport report)) := by
  refine ⟨?_, ?_, ?_, rfl, rfl⟩
  · unfold truncateReport
    split
    · rw [List.length_take]
      omega
    · omega
  · intro h
    unfold truncateReport
    rw [if_pos h]
    exact ⟨rfl, by rw [List.length_take]; omega⟩
  · intro h
    unfold truncateReport
    rw [if_neg (by omega)]

/-- Witness for C8 at a long and a short concrete report. -/
theorem attestationReport_truncation_witness :
    (truncateReport (List.replicate 1200 7)).length = reportSize ∧
    truncateReport (List.replicate 3 1) = List.replicate 3 1 :=
  ⟨((attestationReport_truncation (List.replicate 1200 7)).2.1 (by norm_num [reportSize])).2,
   (attestationReport_truncation (List.replicate 3 1)).2.2.1 (by norm_num [reportSize])⟩

/-- C2: for a correctly signed token of the correct length with the fields in
a range where no int64 conversion overflows, verification succeeds when the
elapsed seconds equal the validity exactly and fails with the expiry error
when they strictly exceed it. -/
theorem verify_expiry_boundary (edCore : Bytes → Bytes → Bytes → Bool)
    (pk nonce sig tok : Bytes) (nowSec iss v : Nat)
    (hn : nonce.length = nonceSize) (hs : sig.length = signatureSize)
    (hpk : pk.length = ed25519PublicKeySize)
    (hdec : rawURLDecode tok = some (nonce ++ be8 iss ++ be8 v ++ sig))
    (hsig : edCore pk (nonce ++ be8 iss ++ be8 v) sig = true)
    (hile : iss ≤ nowSec) (hnow : nowSec ≤ 2 ^ 33) (hv : v ≤ 2 ^ 33) :
    (nowSec - iss = v → verify edCore pk ((nowSec : Int) * nsPerSec) tok = .success) ∧
    (nowSec - iss > v →
      verify edCore pk ((nowSec : Int) * nsPerSec) tok = .failure .apiKeyExpired) := by
  have hp33 : (2 : Nat) ^ 33 = 8589934592 := by norm_num
  have hp63 : (2 : Nat) ^ 63 = 9223372036854775808 := by norm_num
  have hq63 : (2 : Int) ^ 63 = 9223372036854775808 := by norm_num
  have h64i : beUint64 (be8 iss) = iss := beUint64_be8 iss (by norm_num; omega)
  have h64v : beUint64 (be8 v) = v := beUint64_be8 v (by norm_num; omega)
  rw [verify_full_eval edCore pk _ tok nonce sig iss v hn hs hdec, h64i, h64v,
    toInt64_small iss (by omega), toInt64_small v (by omega),
    int64Wrap_eq_self _ (by simp only [nsPerSec]; omega) (by simp only [nsPerSec]; omega),
    timeSinceNs_eq_self _ _ (by simp only [nsPerSec]; omega) (by simp only [nsPerSec]; omega)]
  constructor
  · intro hbd
    rw [if_neg (by simp only [nsPerSec]; omega), if_neg (by simp [hpk]), if_pos hsig]
  · intro hgt
    rw [if_pos (by simp only [nsPerSec]; omega)]

/-- Witness for C2: the spec's 60-second scenario at the boundary and one
second past it. -/
theorem verify_expiry_boundary_witness :
    verify (fun _ _ _ => true) (List.replicate 32 0) ((100 : Int) * nsPerSec)
      (rawURLEncode (List.replicate 16 0 ++ be8 40 ++ be8 60 ++ List.replicate 64 0))
      = .success ∧
    verify (fun _ _ _ => true) (List.replicate 32 0) ((100 : Int) * nsPerSec)
      (rawURLEncode (List.replicate 16 0 ++ be8 39 ++ be8 60 ++ List.replicate 64 0))
      = .failure .apiKeyExpired :=
  ⟨(verify_expiry_boundary (fun _ _ _ => true) (List.replicate 32 0) (List.replicate 16 0)
      (List.replicate 64 0) _ 100 40 60 (by decide) (by decide) (by decide) (by decide) rfl
      (by norm_num) (by norm_num) (by norm_num)).1 (by norm_num),
   (verify_expiry_boundary (fun _ _ _ => true) (List.replicate 32 0) (List.replicate 16 0)
      (List.replicate 64 0) _ 100 39 60 (by decide) (by decide) (by decide) (by decide) rfl
      (by norm_num) (by norm_num) (by norm_num)).2 (by norm_num)⟩

/-- C7: a correctly signed, correct-length token whose issuance time lies in
the future verifies successfully: the elapsed duration is negative and never
strictly exceeds the non-negative validity. -/
theorem verify_future_dated (edCore : Bytes → Bytes → Bytes → Bool)
    (pk nonce sig tok : Bytes) (nowSec iss v : Nat)
    (hn : nonce.length = nonceSize) (hs : sig.length = signatureSize)
    (hpk : pk.length = ed25519PublicKeySize)
    (hdec : rawURLDecode tok = some (nonce ++ be8 iss ++ be8 v ++ sig))
    (hsig : edCore pk (nonce ++ be8 iss ++ be8 v) sig = true)
    (hfut : nowSec < iss) (hib : iss ≤ 2 ^ 33) (hv : v ≤ 2 ^ 33) :
    verify edCore pk ((nowSec : Int) * nsPerSec) tok = .success := by
  have hp33 : (2 : Nat) ^ 33 = 8589934592 := by norm_num
  have hp63 : (2 : Nat) ^ 63 = 9223372036854775808 := by norm_num
  have hq63 : (2 : Int) ^ 63 = 9223372036854775808 := by norm_num
  have h64i : beUint64 (be8 iss) = iss := beUint64_be8 iss (by norm_num; omega)
  have h64v : beUint64 (be8 v) = v := beUint64_be8 v (by norm_num; omega)
  rw [verify_full_eval edCore pk _ tok nonce sig iss v hn hs hdec, h64i, h64v,
    toInt64_small iss (by omega), toInt64_small v (by omega),
    int64Wrap_eq_self _ (by simp only [nsPerSec]; omega) (by simp only [nsPerSec]; omega),
    timeSinceNs_eq_self _ _ (by simp only [nsPerSec]; omega) (by simp only [nsPerSec]; omega)]
  rw [if_neg (by simp only [nsPerSec]; omega), if_neg (by simp [hpk]), if_pos hsig]

/-- Witness for C7: a token issued 100 seconds in the future verifies. -/
theorem verify_future_dated_witness :
    verify (fun _ _ _ => true) (List.replicate 32 0) ((100 : Int) * nsPerSec)
      (rawURLEncode (List.replicate 16 0 ++ be8 200 ++ be8 0 ++ List.replicate 64 0))
      = .success :=
  verify_future_dated (fun _ _ _ => true) (List.replicate 32 0) (List.replicate 16 0)
    (List.replicate 64 0) _ 100 200 0 (by decide) (by decide) (by decide) rfl rfl
    (by norm_num) (by norm_num) (by norm_num)

/-- The expiry decision as the spec words it: both fields read as unsigned
64-bit integers of seconds, elapsed = now - issuedAt, expired exactly when
elapsed strictly exceeds the validity. -/
def expiredUnsignedSpec (nowSec : Int) (iss v : Nat) : Bool :=
  decide (nowSec - (iss : Int) > (v : Int))

/-- C9 counterexample: with validitySeconds = 2 ^ 64 - 1 (high bit set) and a
token issued now, Verify reports expiry although under the unsigned
interpretation the elapsed time 0 does not exceed the validity: the code
converts the field through int64, so it becomes the negative duration -1s. -/
theorem verify_unsigned_counterexample :
    verify (fun _ _ _ => true) (List.replicate 32 0) ((1000 : Int) * nsPerSec)
      (rawURLEncode (List.replicate 16 0 ++ be8 1000 ++ be8 (2 ^ 64 - 1) ++ List.replicate 64 0))
      = .failure .apiKeyExpired ∧
    expiredUnsignedSpec 1000 1000 (2 ^ 64 - 1) = false := by
  constructor
  · decide
  · decide

/-- C9 amended: the fields are parsed as big-endian 64-bit integers and then
reinterpreted as signed int64 values, and the nanosecond conversions wrap or
saturate; only for field values small enough that every conversion stays in
range (both at most 2 ^ 33 here) does the expiry decision agree with the
unsigned seconds interpretation; values with the high bit set behave as
negative instead. -/
theorem verify_expiry_signed_range (edCore : Bytes → Bytes → Bytes → Bool)
    (pk nonce sig tok : Bytes) (nowSec iss v : Nat)
    (hn : nonce.length = nonceSize) (hs : sig.length = signatureSize)
    (hdec : rawURLDecode tok = some (nonce ++ be8 iss ++ be8 v ++ sig))
    (hnow : nowSec ≤ 2 ^ 33) (hib : iss ≤ 2 ^ 33) (hv : v ≤ 2 ^ 33) :
    verify edCore pk ((nowSec : Int) * nsPerSec) tok = .failure .apiKeyExpired ↔
      (nowSec : Int) - (iss : Int) > (v : Int) := by
  have hp33 : (2 : Nat) ^ 33 = 8589934592 := by norm_num
  have hp63 : (2 : Nat) ^ 63 = 9223372036854775808 := by norm_num
  have hq63 : (2 : Int) ^ 63 = 9223372036854775808 := by norm_num
  have h64i : beUint64 (be8 iss) = iss := beUint64_be8 iss (by norm_num; omega)
  have h64v : beUint64 (be8 v) = v := beUint64_be8 v (by norm_num; omega)
  rw [verify_full_eval edCore pk _ tok nonce sig iss v hn hs hdec, h64i, h64v,
    toInt64_small iss (by omega), toInt64_small v (by omega),
    int64Wrap_eq_self _ (by simp only [nsPerSec]; omega) (by simp only [nsPerSec]; omega),
    timeSinceNs_eq_self _ _ (by simp only [nsPerSec]; omega) (by simp only [nsPerSec]; omega)]
  constructor
  · intro h
    by_contra hc
    rw [if_neg (by simp only [nsPerSec]; omega)] at h
    split_ifs at h
    all_goals simp_all
  · intro hc
    rw [if_pos (by simp only [nsPerSec]; omega)]

set_option maxRecDepth 20000 in
/-- Witness for the amended C9 at concrete in-range fields. -/
theorem verify_expiry_signed_range_witness :
    verify (fun _ _ _ => true) (List.replicate 32 0) ((1000 : Int) * nsPerSec)
      (rawURLEncode (List.replicate 16 0 ++ be8 900 ++ be8 50 ++ List.replicate 64 0))
      = .failure .apiKeyExpired :=
  (verify_expiry_signed_range (fun _ _ _ => true) (List.replicate 32 0) (List.replicate 16 0)
    (List.replicate 64 0)
    (rawURLEncode (List.replicate 16 0 ++ be8 900 ++ be8 50 ++ List.replicate 64 0))
    1000 900 50 (by decide) (by decide) (by decide)
    (by norm_num) (by norm_num) (by norm_num)).mpr (by norm_num)

/-- C4: the verifier's four errors are produced in a fixed order: a token
that is not valid unpadded URL-safe base64 fails with the format error; a
token that decodes to any length other than the fixed total fails with the
length error for every key, clock, and signature predicate; for a token of
the correct length the expiry comparison is decided before the signature is
ever consulted, again for every key and signature predicate. -/
theorem verify_error_order (edCore : Bytes → Bytes → Bytes → Bool) (pk : Bytes)
    (nowNs : Int) (tok : Bytes) :
    (rawURLDecode tok = none → verify edCore pk nowNs tok = .failure .invalidKeyFormat) ∧
    (∀ data, rawURLDecode tok = some data → data.length ≠ totalSize →
      verify edCore pk nowNs tok = .failure .invalidKeyLength) ∧
    (∀ data, rawURLDecode tok = some data → data.length = totalSize →
      timeSinceNs nowNs (tokenTimestamp data) > int64Wrap (tokenValidity data * nsPerSec) →
      verify edCore pk nowNs tok = .failure .apiKeyExpired) := by
  refine ⟨?_, ?_, ?_⟩
  · intro h
    simp only [verify, h]
  · intro data h hl
    simp only [verify, h]
    rw [if_pos hl]
  · intro data h hl hexp
    simp only [verify, h]
    rw [if_neg (by simp [hl]), if_pos hexp]

/-- Witness for C4: one token per error, with a wrong-length key and a
rejecting signature predicate to show the earlier checks win. -/
theorem verify_error_order_witness :
    verify (fun _ _ _ => true) [] 0 [33] = .failure .invalidKeyFormat ∧
    verify (fun _ _ _ => true) [] 0 [] = .failure .invalidKeyLength ∧
    verify (fun _ _ _ => false) [] ((1 : Int) * nsPerSec)
      (rawURLEncode (List.replicate 16 0 ++ be8 0 ++ be8 0 ++ List.replicate 64 0))
      = .failure .apiKeyExpired :=
  ⟨(verify_error_order (fun _ _ _ => true) [] 0 [33]).1 (by decide),
   (verify_error_order (fun _ _ _ => true) [] 0 []).2.1 [] (by decide) (by decide),
   (verify_error_order (fun _ _ _ => false) [] ((1 : Int) * nsPerSec) _).2.2
     (List.replicate 16 0 ++ be8 0 ++ be8 0 ++ List.replicate 64 0)
     (by decide) (by decide) (by decide)⟩

/-- C10: NewVerifier accepts any valid unpadded URL-safe base64 text without
checking the decoded length, and a verifier holding a wrong-size key panics
inside ed25519.Verify (rather than reporting the signature error) on any
token that passes the format, length, and expiry checks. -/
theorem newVerifier_wrong_size_key (s pk tok data : Bytes)
    (edCore : Bytes → Bytes → Bytes → Bool) (nowNs : Int)
    (hks : rawURLDecode s = some pk) (hklen : pk.length ≠ ed25519PublicKeySize)
    (hdec : rawURLDecode tok = some data) (hlen : data.length = totalSize)
    (hexp : ¬ timeSinceNs nowNs (tokenTimestamp data) >
      int64Wrap (tokenValidity data * nsPerSec)) :
    newVerifier s = some pk ∧ verify edCore pk nowNs tok = .panicked := by
  constructor
  · unfold newVerifier
    exact hks
  · simp only [verify, hdec]
    rw [if_neg (by simp [hlen]), if_neg hexp, if_pos hklen]

set_option maxRecDepth 20000 in
/-- Witness for C10: the empty string decodes to a zero-length key, and a
fresh zero token then panics in the signature step. -/
theorem newVerifier_wrong_size_key_witness :
    newVerifier [] = some [] ∧
    verify (fun _ _ _ => true) [] 0
      (rawURLEncode (List.replicate 16 0 ++ be8 0 ++ be8 0 ++ List.replicate 64 0))
      = .panicked :=
  newVerifier_wrong_size_key []
    [] (rawURLEncode (List.replicate 16 0 ++ be8 0 ++ be8 0 ++ List.replicate 64 0))
    (List.replicate 16 0 ++ be8 0 ++ be8 0 ++ List.replicate 64 0)
    (fun _ _ _ => true) 0 (by decide) (by decide) (by decide) (by decide) (by decide)

/-- C5 (evaluating the attestation handler on an OPTIONS request): the
response carries status 200 and the three wildcard CORS headers, but the
body is NOT empty — the return inside cors ends only the helper, the handler
continues and serializes the document into the body. -/
theorem attestation_options_serializes_body (att : Document) :
    (attestationHandler att "OPTIONS").status = some 200 ∧
    hGet (attestationHandler att "OPTIONS").sent "Access-Control-Allow-Origin" = some ["*"] ∧
    hGet (attestationHandler att "OPTIONS").sent "Access-Control-Allow-Methods" = some ["*"] ∧
    hGet (attestationHandler att "OPTIONS").sent "Access-Control-Allow-Headers" = some ["*"] ∧
    (attestationHandler att "OPTIONS").body = jsonEncodeDocument att ++ "\n" ∧
    (attestationHandler att "OPTIONS").body ≠ "" := by
  have hb : (attestationHandler att "OPTIONS").body = jsonEncodeDocument att ++ "\n" := rfl
  refine ⟨rfl, rfl, rfl, rfl, hb, ?_⟩
  rw [hb]
  intro h
  have h2 := congrArg String.length h
  rw [String.length_append] at h2
  have h3 : ("\n" : String).length = 1 := rfl
  have h4 : ("" : String).length = 0 := rfl
  omega

/-- C6 (evaluating the attestation handler on a GET request): the response
carries status 200, the three wildcard CORS headers each with a single
value, and the JSON document body, but the sent headers do NOT include
Content-Type: the handler sets it only after WriteHeader, when the header
map has already been snapshotted; the ineffective set is still visible in
the handler's pending map. -/
theorem attestation_get_missing_content_type (att : Document) :
    (attestationHandler att "GET").status = some 200 ∧
    hGet (attestationHandler att "GET").sent "Access-Control-Allow-Origin" = some ["*"] ∧
    hGet (attestationHandler att "GET").sent "Access-Control-Allow-Methods" = some ["*"] ∧
    hGet (attestationHandler att "GET").sent "Access-Control-Allow-Headers" = some ["*"] ∧
    (attestationHandler att "GET").body = jsonEncodeDocument att ++ "\n" ∧
    hGet (attestationHandler att "GET").sent "Content-Type" = none ∧
    hGet (attestationHandler att "GET").pending "Content-Type" = some ["application/json"] :=
  ⟨rfl, rfl, rfl, rfl, rfl, rfl, rfl⟩

end SevShim
